import Mathlib

/-!
Shallow embedding of the yotsu-chat client entity store and its operations.

The embedding follows two source files:
* `yotsu-chat-frontend/src/store/appStore.ts` — the zustand store (auth,
  presence, channels, members, messages, reactions).  Its definitions live in
  namespace `Store`.
* `webapp/app/yotsu-interface.tsx` — the standalone chat component with its own
  paginated `fetchMessages`.  Its definitions live in namespace `Webapp`.

Modelling conventions:
* A JS `Record<number, T>` is modelled as a function `Nat → Option T`
  (`RMap T`); key order is never observed by the code under study.
* A network round trip is modelled by passing the server's (already decoded)
  response as an explicit argument; `none` stands for a non-ok response or a
  thrown error (both are caught and only logged by the source).
* An optional JSON field (`undefined` when absent, and only ever carrying a
  non-empty value when present) is an `Option`.
* The `localStorage` slot `refresh_token` is carried in the state record as
  `storedRefreshToken`.
* Each sync operation returns, besides the new state, a `Bool` that is `true`
  exactly when the operation issued at least one network request.
-/

namespace Yotsu

/-- A JS object used as a map from numeric keys to values. -/
def RMap (β : Type) : Type := Nat → Option β

/-- The empty map `{}`. -/
def RMap.empty {β : Type} : RMap β := fun _ => none

/-- Model of `m[k] = v` (set / overwrite one key). -/
def RMap.insert {β : Type} (m : RMap β) (k : Nat) (v : β) : RMap β :=
  fun k' => if k' = k then some v else m k'

/-- Model of `delete m[k]`. -/
def RMap.erase {β : Type} (m : RMap β) (k : Nat) : RMap β :=
  fun k' => if k' = k then none else m k'

@[simp] theorem RMap.insert_self {β : Type} (m : RMap β) (k : Nat) (v : β) :
    m.insert k v k = some v := by
  simp [RMap.insert]

theorem RMap.insert_ne {β : Type} (m : RMap β) (k k' : Nat) (v : β) (h : k' ≠ k) :
    m.insert k v k' = m k' := by
  simp [RMap.insert, h]

namespace Store

/-- Model of `Channel` from `appStore.ts` (the `type` field ranges over
`'public' | 'private' | 'dm' | 'notes'`). -/
structure Channel where
  channel_id : Nat
  name : String
  type : String
deriving DecidableEq, Repr

/-- Model of `Member` from `appStore.ts`. -/
structure Member where
  user_id : Nat
  display_name : String
  role : String
deriving DecidableEq, Repr

/-- Model of `Message` from `appStore.ts`; `created_at` is kept as the wire string
(the store never compares timestamps). -/
structure Message where
  message_id : Nat
  channel_id : Nat
  user_id : Nat
  content : String
  created_at : String
  edited_at : Option String
  display_name : String
  parent_id : Option Nat
  has_reactions : Bool
deriving DecidableEq, Repr

/-- Model of `Reaction` aggregate from `appStore.ts`. -/
structure Reaction where
  emoji : String
  count : Nat
  users : List Nat
deriving DecidableEq, Repr

/-- The whole zustand store state (all slices), plus the `localStorage`
slot `refresh_token` as `storedRefreshToken`. -/
structure AppState where
  accessToken : Option String
  isAuthenticated : Bool
  userId : Option Nat
  tempToken : Option String
  is2FARequired : Bool
  onlineUsers : RMap Bool
  channels : RMap Channel
  membersByChannel : RMap (List Member)
  messagesByChannel : RMap (List Message)
  reactionsByMessage : RMap (List Reaction)
  storedRefreshToken : Option String

/-- The store's initial state (all slices start empty, the session
unauthenticated), with an empty `localStorage`. -/
def initialState : AppState where
  accessToken := none
  isAuthenticated := false
  userId := none
  tempToken := none
  is2FARequired := false
  onlineUsers := RMap.empty
  channels := RMap.empty
  membersByChannel := RMap.empty
  messagesByChannel := RMap.empty
  reactionsByMessage := RMap.empty
  storedRefreshToken := none

/-! ### Reactions slice -/

/-- Body of `handleReactionAdded` acting on one message's aggregate list:
`findIndex` by emoji; on a hit `count += 1` and `users.push(user_id)`;
otherwise push `{emoji, count: 1, users: [user_id]}` at the end. -/
def addReactionToList (l : List Reaction) (emoji : String) (uid : Nat) :
    List Reaction :=
  match l with
  | [] => [{ emoji := emoji, count := 1, users := [uid] }]
  | r :: rs =>
    if r.emoji = emoji then
      { r with count := r.count + 1, users := r.users ++ [uid] } :: rs
    else
      r :: addReactionToList rs emoji uid

/-- Body of `handleReactionRemoved` acting on one message's aggregate list:
`findIndex` by emoji; on a hit filter the user out of `users`, set
`count = users.length`, and splice the aggregate out when the count is 0. -/
def removeReactionFromList (l : List Reaction) (emoji : String) (uid : Nat) :
    List Reaction :=
  match l with
  | [] => []
  | r :: rs =>
    if r.emoji = emoji then
      if (r.users.filter (fun u => u ≠ uid)).length = 0 then rs
      else { r with count := (r.users.filter (fun u => u ≠ uid)).length,
                    users := r.users.filter (fun u => u ≠ uid) } :: rs
    else
      r :: removeReactionFromList rs emoji uid

/-- Model of `handleReactionAdded(messageId, {emoji, user_id})`: a missing aggregate
list is first created empty, then the list update above is applied. -/
def handleReactionAdded (st : AppState) (messageId : Nat) (emoji : String)
    (uid : Nat) : AppState :=
  let l0 := (st.reactionsByMessage messageId).getD []
  { st with reactionsByMessage :=
      st.reactionsByMessage.insert messageId (addReactionToList l0 emoji uid) }

/-- Model of `handleReactionRemoved(messageId, {emoji, user_id})`: a missing aggregate
list makes the handler a no-op. -/
def handleReactionRemoved (st : AppState) (messageId : Nat) (emoji : String)
    (uid : Nat) : AppState :=
  match st.reactionsByMessage messageId with
  | none => st
  | some l =>
    { st with reactionsByMessage :=
        st.reactionsByMessage.insert messageId (removeReactionFromList l emoji uid) }

/-- One pushed reaction event for a fixed message. -/
inductive ReactionEvent where
  | add (emoji : String) (uid : Nat)
  | remove (emoji : String) (uid : Nat)
deriving DecidableEq, Repr

/-- Dispatch one reaction event to the matching handler. -/
def applyReactionEvent (st : AppState) (mid : Nat) : ReactionEvent → AppState
  | .add e u => handleReactionAdded st mid e u
  | .remove e u => handleReactionRemoved st mid e u

/-- Apply a sequence of reaction events for one message, in order. -/
def applyReactionEvents (st : AppState) (mid : Nat) (es : List ReactionEvent) :
    AppState :=
  es.foldl (fun s e => applyReactionEvent s mid e) st

/-- An `add` event is admissible when the user is not already in that emoji's
user set (the spec's contract precondition); `remove` is always admissible. -/
def reactionEventOk (st : AppState) (mid : Nat) : ReactionEvent → Bool
  | .add e u =>
      ((st.reactionsByMessage mid).getD []).all
        (fun r => !(r.emoji == e) || !(r.users.contains u))
  | .remove _ _ => true

/-- Every event of the sequence is admissible in the state it is applied to. -/
def reactionEventsOk (st : AppState) (mid : Nat) : List ReactionEvent → Bool
  | [] => true
  | e :: es =>
      reactionEventOk st mid e && reactionEventsOk (applyReactionEvent st mid e) mid es

/-- The §3 invariant on one message's aggregate list: every aggregate has
`count = |users|`, and no aggregate with `count = 0` is present. -/
def reactionListInv (l : List Reaction) : Prop :=
  ∀ r ∈ l, r.count = r.users.length ∧ r.count ≠ 0

/-- The invariant is a decidable property of a concrete aggregate list. -/
instance (l : List Reaction) : Decidable (reactionListInv l) :=
  inferInstanceAs (Decidable (∀ r ∈ l, r.count = r.users.length ∧ r.count ≠ 0))

theorem reactionListInv_add (l : List Reaction) (e : String) (u : Nat)
    (h : reactionListInv l) : reactionListInv (addReactionToList l e u) := by
  induction l with
  | nil =>
    intro r hr
    simp only [addReactionToList, List.mem_singleton] at hr
    subst hr
    simp
  | cons hd rs ih =>
    by_cases hae : hd.emoji = e
    · rw [addReactionToList, if_pos hae]
      intro r hr
      rcases List.mem_cons.mp hr with hr | hr
      · subst hr
        have h0 := h hd (List.mem_cons_self hd rs)
        refine ⟨?_, by simp⟩
        simp [h0.1]
      · exact h r (List.mem_cons_of_mem hd hr)
    · rw [addReactionToList, if_neg hae]
      intro r hr
      rcases List.mem_cons.mp hr with hr | hr
      · rw [hr]
        exact h hd (List.mem_cons_self hd rs)
      · exact ih (fun x hx => h x (List.mem_cons_of_mem hd hx)) r hr

theorem reactionListInv_remove (l : List Reaction) (e : String) (u : Nat)
    (h : reactionListInv l) : reactionListInv (removeReactionFromList l e u) := by
  induction l with
  | nil =>
    intro r hr
    simp [removeReactionFromList] at hr
  | cons hd rs ih =>
    by_cases hae : hd.emoji = e
    · rw [removeReactionFromList, if_pos hae]
      by_cases hz : (hd.users.filter (fun v => v ≠ u)).length = 0
      · rw [if_pos hz]
        intro r hr
        exact h r (List.mem_cons_of_mem hd hr)
      · rw [if_neg hz]
        intro r hr
        rcases List.mem_cons.mp hr with hr | hr
        · subst hr
          exact ⟨rfl, hz⟩
        · exact h r (List.mem_cons_of_mem hd hr)
    · rw [removeReactionFromList, if_neg hae]
      intro r hr
      rcases List.mem_cons.mp hr with hr | hr
      · rw [hr]
        exact h hd (List.mem_cons_self hd rs)
      · exact ih (fun x hx => h x (List.mem_cons_of_mem hd hx)) r hr

theorem reactionListInv_event (st : AppState) (mid : Nat) (ev : ReactionEvent)
    (h : reactionListInv ((st.reactionsByMessage mid).getD [])) :
    reactionListInv (((applyReactionEvent st mid ev).reactionsByMessage mid).getD []) := by
  cases ev with
  | add e u =>
    simp only [applyReactionEvent, handleReactionAdded, RMap.insert_self, Option.getD_some]
    exact reactionListInv_add _ e u h
  | remove e u =>
    cases hm : st.reactionsByMessage mid with
    | none =>
      simpa [applyReactionEvent, handleReactionRemoved, hm] using h
    | some l =>
      simp only [applyReactionEvent, handleReactionRemoved, hm, RMap.insert_self,
        Option.getD_some]
      exact reactionListInv_remove l e u (by simpa [hm] using h)

theorem reactionListInv_events (mid : Nat) (es : List ReactionEvent) :
    ∀ st : AppState, reactionListInv ((st.reactionsByMessage mid).getD []) →
      reactionListInv (((applyReactionEvents st mid es).reactionsByMessage mid).getD []) := by
  induction es with
  | nil => intro st h; simpa [applyReactionEvents] using h
  | cons e es ih =>
    intro st h
    have h1 := reactionListInv_event st mid e h
    simpa [applyReactionEvents] using ih (applyReactionEvent st mid e) h1

/-- C1: for every admissible event sequence on one message, starting from a
state satisfying the invariant, the invariant `count = |users|` (and the
absence of `count = 0` aggregates) holds after every call, i.e. after every
prefix of the sequence. -/
theorem c1_reaction_invariant (st : AppState) (mid : Nat)
    (es p t : List ReactionEvent)
    (hinv : reactionListInv ((st.reactionsByMessage mid).getD []))
    (hok : reactionEventsOk st mid es = true)
    (hsplit : es = p ++ t) :
    reactionListInv (((applyReactionEvents st mid p).reactionsByMessage mid).getD []) :=
  reactionListInv_events mid p st hinv

/-- Witness for C1 at a concrete three-event sequence. -/
theorem c1_reaction_invariant_witness :
    reactionListInv
      (((applyReactionEvents initialState 7
          [.add ":s:" 5, .add ":s:" 6, .remove ":s:" 5]).reactionsByMessage 7).getD []) :=
  c1_reaction_invariant initialState 7
    [.add ":s:" 5, .add ":s:" 6, .remove ":s:" 5]
    [.add ":s:" 5, .add ":s:" 6, .remove ":s:" 5] []
    (by decide) (by decide) (by decide)

/-! ### Auth slice -/

/-- Decoded body of the `POST /api/auth/login` exchange.  `ok` is
`response.ok`; `detailMessage` is `error.detail?.message` of a non-ok body;
the remaining fields are the success body's optional fields. -/
structure LoginResponse where
  ok : Bool
  detailMessage : Option String
  temp_token : Option String
  access_token : Option String
  refresh_token : Option String
  user_id : Option Nat
deriving DecidableEq, Repr

/-- Result of `login` as observed by the caller. -/
inductive LoginResult where
  | ok (requires2FA : Bool)
  | error (msg : String)
deriving DecidableEq, Repr

/-- Model of `login({email, password})`: on a non-ok response throw the backend's
detail (default `'Failed to log in'`); on a `temp_token` enter the 2FA-pending
state; on an `access_token` become authenticated, record `user_id`, clear the
temporary fields and persist a returned refresh token. -/
def login (st : AppState) (resp : LoginResponse) : AppState × LoginResult :=
  if !resp.ok then
    (st, .error (resp.detailMessage.getD "Failed to log in"))
  else
    match resp.temp_token with
    | some tt =>
      ({ st with tempToken := some tt, is2FARequired := true }, .ok true)
    | none =>
      match resp.access_token with
      | some tok =>
        let st1 := { st with accessToken := some tok, isAuthenticated := true,
                             userId := resp.user_id, tempToken := none,
                             is2FARequired := false }
        (match resp.refresh_token with
         | some r => { st1 with storedRefreshToken := some r }
         | none => st1, .ok false)
      | none => (st, .ok false)

/-- Model of `logout()`: clear every session field and remove the persisted
`refresh_token`. -/
def logout (st : AppState) : AppState :=
  { st with accessToken := none, isAuthenticated := false, userId := none,
            tempToken := none, is2FARequired := false,
            storedRefreshToken := none }

/-- Decoded success body of `POST /api/auth/refresh`. -/
structure RefreshResponse where
  access_token : String
  refresh_token : Option String
deriving DecidableEq, Repr

/-- Model of `refreshTokens()`: with no persisted refresh token, or on a non-ok
response or error (`resp = none`), the catch block calls `logout()`.  On
success only the access token, the authenticated flag and (when returned) the
persisted refresh token are written. -/
def refreshTokens (st : AppState) (resp : Option RefreshResponse) : AppState :=
  match st.storedRefreshToken with
  | none => logout st
  | some _ =>
    match resp with
    | none => logout st
    | some data =>
      let st1 := { st with accessToken := some data.access_token,
                           isAuthenticated := true }
      match data.refresh_token with
      | some r => { st1 with storedRefreshToken := some r }
      | none => st1

/-- C4: a `login` call answered with a non-ok response surfaces the backend's
error detail and leaves the whole store unchanged; in particular an
unauthenticated session stays unauthenticated with a null access token. -/
theorem c4_login_failure (st : AppState) (resp : LoginResponse)
    (h : resp.ok = false) :
    (login st resp).1 = st ∧
    (login st resp).2 = .error (resp.detailMessage.getD "Failed to log in") ∧
    (st.isAuthenticated = false → (login st resp).1.isAuthenticated = false) ∧
    (st.accessToken = none → (login st resp).1.accessToken = none) := by
  refine ⟨?_, ?_, ?_, ?_⟩ <;> simp [login, h]

/-- Witness for C4: a failed login from the initial state. -/
theorem c4_login_failure_witness :
    (login initialState
        { ok := false, detailMessage := some "Invalid credentials",
          temp_token := none, access_token := none, refresh_token := none,
          user_id := none }).2 = .error "Invalid credentials" :=
  (c4_login_failure initialState
    { ok := false, detailMessage := some "Invalid credentials",
      temp_token := none, access_token := none, refresh_token := none,
      user_id := none } (by decide)).2.1

/-- C5: every failing `refreshTokens` call (missing stored token, or a non-ok
or failed exchange) forces logout: the session fields are cleared and the
persisted refresh token is removed; the resulting state is exactly
`logout st`. -/
theorem c5_refresh_failure_logout (st : AppState) (resp : Option RefreshResponse)
    (h : st.storedRefreshToken = none ∨ resp = none) :
    refreshTokens st resp = logout st ∧
    (refreshTokens st resp).accessToken = none ∧
    (refreshTokens st resp).userId = none ∧
    (refreshTokens st resp).tempToken = none ∧
    (refreshTokens st resp).isAuthenticated = false ∧
    (refreshTokens st resp).is2FARequired = false ∧
    (refreshTokens st resp).storedRefreshToken = none := by
  have heq : refreshTokens st resp = logout st := by
    rcases h with h | h
    · simp [refreshTokens, h]
    · subst h
      cases hs : st.storedRefreshToken <;> simp [refreshTokens, hs]
  rw [heq]
  exact ⟨rfl, rfl, rfl, rfl, rfl, rfl, rfl⟩

/-- Witness for C5: a refresh with no stored token from the initial state. -/
theorem c5_refresh_failure_logout_witness :
    refreshTokens initialState none = logout initialState :=
  (c5_refresh_failure_logout initialState none (Or.inl rfl)).1

/-- C10: a successful `refreshTokens` call writes only the access token, the
authenticated flag and the persisted refresh token; `userId`, `tempToken`,
`is2FARequired` and every entity slice are untouched.  A session restored
through `refreshTokens` alone therefore has `isAuthenticated = true` with
`userId` still null. -/
theorem c10_refresh_success_frame (st : AppState) (rt : String)
    (data : RefreshResponse) (h : st.storedRefreshToken = some rt) :
    (refreshTokens st (some data)).accessToken = some data.access_token ∧
    (refreshTokens st (some data)).isAuthenticated = true ∧
    (refreshTokens st (some data)).userId = st.userId ∧
    (refreshTokens st (some data)).tempToken = st.tempToken ∧
    (refreshTokens st (some data)).is2FARequired = st.is2FARequired ∧
    (refreshTokens st (some data)).onlineUsers = st.onlineUsers ∧
    (refreshTokens st (some data)).channels = st.channels ∧
    (refreshTokens st (some data)).membersByChannel = st.membersByChannel ∧
    (refreshTokens st (some data)).messagesByChannel = st.messagesByChannel ∧
    (refreshTokens st (some data)).reactionsByMessage = st.reactionsByMessage ∧
    (st.userId = none → (refreshTokens st (some data)).userId = none) := by
  cases hr : data.refresh_token <;>
    refine ⟨?_, ?_, ?_, ?_, ?_, ?_, ?_, ?_, ?_, ?_, ?_⟩ <;>
      simp [refreshTokens, h, hr]

/-- Witness for C10 at a concrete stored token and refresh response. -/
theorem c10_refresh_success_frame_witness :
    (refreshTokens { initialState with storedRefreshToken := some "r0" }
        (some { access_token := "a1", refresh_token := some "r1" })).isAuthenticated
      = true ∧
    (refreshTokens { initialState with storedRefreshToken := some "r0" }
        (some { access_token := "a1", refresh_token := some "r1" })).userId
      = none := by
  have h := c10_refresh_success_frame
    { initialState with storedRefreshToken := some "r0" } "r0"
    { access_token := "a1", refresh_token := some "r1" } rfl
  exact ⟨h.2.1, h.2.2.2.2.2.2.2.2.2.2 rfl⟩

/-! ### Channels slice -/

/-- Model of `data.reduce((map, ch) => { map[ch.channel_id] = ch; return map }, {})`:
build the channel map keyed by `channel_id` (later duplicates win). -/
def buildChannelMap (data : List Channel) : RMap Channel :=
  data.foldl (fun m ch => m.insert ch.channel_id ch) RMap.empty

/-- Model of `listChannels()`: with a token, `GET /api/channels` and replace the
`channels` map wholesale with the response; a failed call changes nothing. -/
def listChannels (st : AppState) (resp : Option (List Channel)) :
    AppState × Bool :=
  if st.accessToken.isNone then (st, false)
  else
    match resp with
    | none => (st, true)
    | some data => ({ st with channels := buildChannelMap data }, true)

/-- Model of `refreshChannels()`: same exchange and wholesale replacement as
`listChannels`. -/
def refreshChannels (st : AppState) (resp : Option (List Channel)) :
    AppState × Bool :=
  if st.accessToken.isNone then (st, false)
  else
    match resp with
    | none => (st, true)
    | some data => ({ st with channels := buildChannelMap data }, true)

/-- Model of `createChannel({name, type})`: `POST /api/channels`, then a second fetch of
the new channel's details; on success the detail object is stored under its
own `channel_id`. -/
def createChannel (st : AppState) (resp : Option Channel)
    (detailResp : Option Channel) : AppState × Bool :=
  if st.accessToken.isNone then (st, false)
  else
    match resp with
    | none => (st, true)
    | some _ =>
      match detailResp with
      | none => (st, true)
      | some channelDetails =>
        ({ st with channels :=
            st.channels.insert channelDetails.channel_id channelDetails }, true)

/-- Model of `updateChannel(channelId, payload)`: `PATCH /api/channels/{id}`; the local
entry under the *argument* key is replaced by the server's returned channel. -/
def updateChannel (st : AppState) (channelId : Nat) (payloadName : String)
    (resp : Option Channel) : AppState × Bool :=
  if st.accessToken.isNone then (st, false)
  else
    match resp with
    | none => (st, true)
    | some updated =>
      ({ st with channels := st.channels.insert channelId updated }, true)

/-- Model of `handleJoinEvent(channelId, joinedUserId)`: refresh only when the joined
user is the session user and the channel is absent locally.  The second
component counts the `refreshChannels()` invocations. -/
def handleJoinEvent (st : AppState) (channelId joinedUserId : Nat)
    (refreshResp : Option (List Channel)) : AppState × Nat :=
  if st.userId = some joinedUserId ∧ st.channels channelId = none then
    ((refreshChannels st refreshResp).1, 1)
  else (st, 0)

/-- Model of `handleLeaveEvent(channelId, leftUserId)`: refresh only when the left user
is the session user and the channel is present locally.  The second component
counts the `refreshChannels()` invocations. -/
def handleLeaveEvent (st : AppState) (channelId leftUserId : Nat)
    (refreshResp : Option (List Channel)) : AppState × Nat :=
  if st.userId = some leftUserId ∧ (st.channels channelId).isSome = true then
    ((refreshChannels st refreshResp).1, 1)
  else (st, 0)

theorem buildChannelMap_foldl_not_mem (data : List Channel) (m : RMap Channel)
    (k : Nat) (h : ∀ ch ∈ data, ch.channel_id ≠ k) :
    (data.foldl (fun m ch => m.insert ch.channel_id ch) m) k = m k := by
  induction data generalizing m with
  | nil => rfl
  | cons a rest ih =>
    rw [List.foldl_cons, ih _ (fun ch hch => h ch (List.mem_cons_of_mem a hch))]
    exact RMap.insert_ne m a.channel_id k a (h a (List.mem_cons_self a rest)).symm

theorem buildChannelMap_foldl_mem (data : List Channel) (m : RMap Channel)
    (k : Nat) (h : ∃ ch ∈ data, ch.channel_id = k) :
    ∃ ch', (data.foldl (fun m ch => m.insert ch.channel_id ch) m) k = some ch' ∧
      ch' ∈ data ∧ ch'.channel_id = k := by
  induction data generalizing m with
  | nil =>
    rcases h with ⟨ch, hch, _⟩
    simp at hch
  | cons a rest ih =>
    by_cases hrest : ∃ ch ∈ rest, ch.channel_id = k
    · rcases ih (m.insert a.channel_id a) hrest with ⟨ch', h1, h2, h3⟩
      refine ⟨ch', ?_, List.mem_cons_of_mem a h2, h3⟩
      simpa [List.foldl_cons] using h1
    · have hak : a.channel_id = k := by
        rcases h with ⟨ch, hch, hid⟩
        rcases List.mem_cons.mp hch with hch | hch
        · rw [← hch]; exact hid
        · exact absurd ⟨ch, hch, hid⟩ hrest
      refine ⟨a, ?_, List.mem_cons_self a rest, hak⟩
      rw [List.foldl_cons,
        buildChannelMap_foldl_not_mem rest _ k (fun c hc hck => hrest ⟨c, hc, hck⟩),
        ← hak]
      exact RMap.insert_self m a.channel_id a

/-- C8: a successful `listChannels` or `refreshChannels` call answered with
the array `data` leaves `channels` exactly equal to the map built from `data`:
every listed channel is found under its id, and any id not listed — whatever
was stored before — is absent. -/
theorem c8_channels_wholesale (st : AppState) (tok : String)
    (data : List Channel) (h : st.accessToken = some tok) :
    (listChannels st (some data)).1.channels = buildChannelMap data ∧
    (refreshChannels st (some data)).1.channels = buildChannelMap data ∧
    (∀ ch ∈ data, ∃ ch', buildChannelMap data ch.channel_id = some ch' ∧
        ch' ∈ data ∧ ch'.channel_id = ch.channel_id) ∧
    (∀ cid : Nat, (∀ ch ∈ data, ch.channel_id ≠ cid) →
        buildChannelMap data cid = none) := by
  refine ⟨by simp [listChannels, h], by simp [refreshChannels, h], ?_, ?_⟩
  · intro ch hch
    exact buildChannelMap_foldl_mem data RMap.empty ch.channel_id ⟨ch, hch, rfl⟩
  · intro cid hcid
    rw [buildChannelMap, buildChannelMap_foldl_not_mem data RMap.empty cid hcid]
    rfl

/-- Witness for C8: a two-channel response replaces a previously stored
channel `9`. -/
theorem c8_channels_wholesale_witness :
    (listChannels
        { initialState with accessToken := some "t",
                            channels := RMap.empty.insert 9 ⟨9, "old", "public"⟩ }
        (some [⟨1, "general", "public"⟩, ⟨2, "random", "public"⟩])).1.channels 5
      = none := by
  have h := c8_channels_wholesale
    { initialState with accessToken := some "t",
                        channels := RMap.empty.insert 9 ⟨9, "old", "public"⟩ }
    "t" [⟨1, "general", "public"⟩, ⟨2, "random", "public"⟩] rfl
  rw [h.1]
  exact h.2.2.2 5 (by decide)

/-- C7: `handleJoinEvent` calls `refreshChannels` exactly once when the joined
user is the session user and the channel is locally absent, and never
otherwise; `handleLeaveEvent` calls it exactly once when the left user is the
session user and the channel is locally present, and never otherwise. -/
theorem c7_membership_refresh (st : AppState) (cid uid : Nat)
    (resp : Option (List Channel)) :
    ((handleJoinEvent st cid uid resp).2 = 1 ↔
      st.userId = some uid ∧ st.channels cid = none) ∧
    ((handleJoinEvent st cid uid resp).2 = 0 ↔
      ¬(st.userId = some uid ∧ st.channels cid = none)) ∧
    ((handleLeaveEvent st cid uid resp).2 = 1 ↔
      st.userId = some uid ∧ (st.channels cid).isSome = true) ∧
    ((handleLeaveEvent st cid uid resp).2 = 0 ↔
      ¬(st.userId = some uid ∧ (st.channels cid).isSome = true)) := by
  refine ⟨?_, ?_, ?_, ?_⟩
  · by_cases hc : st.userId = some uid ∧ st.channels cid = none <;>
      simp [handleJoinEvent, hc]
  · by_cases hc : st.userId = some uid ∧ st.channels cid = none <;>
      simp [handleJoinEvent, hc]
  · by_cases hc : st.userId = some uid ∧ (st.channels cid).isSome = true <;>
      simp [handleLeaveEvent, hc]
  · by_cases hc : st.userId = some uid ∧ (st.channels cid).isSome = true <;>
      simp [handleLeaveEvent, hc]

/-- Witness for C7: the spec scenario `handleLeaveEvent(10, 5)` with
`userId = 5` and channel `10` present locally triggers exactly one refresh. -/
theorem c7_membership_refresh_witness :
    (handleLeaveEvent
        { initialState with userId := some 5,
                            channels := RMap.empty.insert 10 ⟨10, "general", "public"⟩ }
        10 5 none).2 = 1 :=
  (c7_membership_refresh
    { initialState with userId := some 5,
                        channels := RMap.empty.insert 10 ⟨10, "general", "public"⟩ }
    10 5 none).2.2.1.mpr ⟨rfl, by decide⟩

/-! ### Channel members slice -/

/-- Model of `fetchChannelMembers(channelId)`: replace that channel's member list
wholesale with the response. -/
def fetchChannelMembers (st : AppState) (channelId : Nat)
    (resp : Option (List Member)) : AppState × Bool :=
  if st.accessToken.isNone then (st, false)
  else
    match resp with
    | none => (st, true)
    | some data =>
      ({ st with membersByChannel := st.membersByChannel.insert channelId data },
       true)

/-! ### Messages slice -/

/-- Model of `fetchMessages(channelId)` of the store: replace that channel's message
list wholesale with the response. -/
def fetchMessages (st : AppState) (channelId : Nat)
    (resp : Option (List Message)) : AppState × Bool :=
  if st.accessToken.isNone then (st, false)
  else
    match resp with
    | none => (st, true)
    | some msgs =>
      ({ st with messagesByChannel := st.messagesByChannel.insert channelId msgs },
       true)

/-- Model of `createMessage(channelId, content)`: push the server's returned message at
the end of that channel's list (creating the list when missing). -/
def createMessage (st : AppState) (channelId : Nat) (content : String)
    (resp : Option Message) : AppState × Bool :=
  if st.accessToken.isNone then (st, false)
  else
    match resp with
    | none => (st, true)
    | some newMsg =>
      let bucket := ((st.messagesByChannel channelId).getD []) ++ [newMsg]
      ({ st with messagesByChannel :=
          st.messagesByChannel.insert channelId bucket }, true)

/-- Model of `findIndex`-and-assign: replace the first message whose id is `mid`. -/
def replaceFirstById (msgs : List Message) (mid : Nat) (newMsg : Message) :
    List Message :=
  match msgs with
  | [] => []
  | m :: rest =>
    if m.message_id = mid then newMsg :: rest
    else m :: replaceFirstById rest mid newMsg

/-- Model of `updateMessage(messageId, content)`: in the bucket named by the returned
message's `channel_id`, replace the first entry matching the argument id. -/
def updateMessage (st : AppState) (messageId : Nat) (content : String)
    (resp : Option Message) : AppState × Bool :=
  if st.accessToken.isNone then (st, false)
  else
    match resp with
    | none => (st, true)
    | some updatedMsg =>
      match st.messagesByChannel updatedMsg.channel_id with
      | none => (st, true)
      | some bucket =>
        let newBucket := replaceFirstById bucket messageId updatedMsg
        ({ st with messagesByChannel :=
            st.messagesByChannel.insert updatedMsg.channel_id newBucket }, true)

/-- Model of `deleteMessage(messageId)`: on a 2xx response filter the id out of every
channel bucket. -/
def deleteMessage (st : AppState) (messageId : Nat) (respOk : Bool) :
    AppState × Bool :=
  if st.accessToken.isNone then (st, false)
  else if !respOk then (st, true)
  else
    let newMap : RMap (List Message) := fun ch =>
      (st.messagesByChannel ch).map
        (fun msgs => msgs.filter (fun m => m.message_id ≠ messageId))
    ({ st with messagesByChannel := newMap }, true)

/-- Model of `handleMessageCreated(message)`: ensure the channel bucket exists, then
push the message unless an entry with the same `message_id` is already
there. -/
def handleMessageCreated (st : AppState) (message : Message) : AppState :=
  let m0 := st.messagesByChannel
  let m1 := if (m0 message.channel_id).isNone
            then m0.insert message.channel_id [] else m0
  let bucket := (m1 message.channel_id).getD []
  if bucket.any (fun x => x.message_id == message.message_id) then
    { st with messagesByChannel := m1 }
  else
    { st with messagesByChannel :=
        m1.insert message.channel_id (bucket ++ [message]) }

/-! ### Reactions fetch -/

/-- Model of `fetchReactionsForMessage(messageId)`: replace that message's aggregate
list wholesale with the response. -/
def fetchReactionsForMessage (st : AppState) (messageId : Nat)
    (resp : Option (List Reaction)) : AppState × Bool :=
  if st.accessToken.isNone then (st, false)
  else
    match resp with
    | none => (st, true)
    | some data =>
      ({ st with reactionsByMessage := st.reactionsByMessage.insert messageId data },
       true)

/-- C9: with a null access token, every authenticated sync operation returns
before issuing a network request and leaves the whole store unchanged. -/
theorem c9_no_token_no_effect (st : AppState) (h : st.accessToken = none) :
    (∀ resp, listChannels st resp = (st, false)) ∧
    (∀ r1 r2, createChannel st r1 r2 = (st, false)) ∧
    (∀ resp, refreshChannels st resp = (st, false)) ∧
    (∀ cid pn resp, updateChannel st cid pn resp = (st, false)) ∧
    (∀ cid resp, fetchChannelMembers st cid resp = (st, false)) ∧
    (∀ cid resp, fetchMessages st cid resp = (st, false)) ∧
    (∀ cid c resp, createMessage st cid c resp = (st, false)) ∧
    (∀ mid c resp, updateMessage st mid c resp = (st, false)) ∧
    (∀ mid ok, deleteMessage st mid ok = (st, false)) ∧
    (∀ mid resp, fetchReactionsForMessage st mid resp = (st, false)) := by
  refine ⟨?_, ?_, ?_, ?_, ?_, ?_, ?_, ?_, ?_, ?_⟩ <;>
    intros <;>
    simp [listChannels, createChannel, refreshChannels, updateChannel,
      fetchChannelMembers, fetchMessages, createMessage, updateMessage,
      deleteMessage, fetchReactionsForMessage, h]

/-- Witness for C9: one of the operations applied at the (token-less) initial
state. -/
theorem c9_no_token_no_effect_witness :
    listChannels initialState (some [⟨1, "general", "public"⟩])
      = (initialState, false) :=
  (c9_no_token_no_effect initialState rfl).1 (some [⟨1, "general", "public"⟩])

theorem handleMessageCreated_mem (st : AppState) (m : Message) :
    (((handleMessageCreated st m).messagesByChannel m.channel_id).getD []).any
      (fun x => x.message_id == m.message_id) = true := by
  cases h0 : st.messagesByChannel m.channel_id with
  | none =>
    simp only [handleMessageCreated, h0, Option.isNone_none, if_true,
      RMap.insert_self, Option.getD_some, List.any_nil, List.nil_append,
      Bool.false_eq_true, if_false]
    simp
  | some b =>
    by_cases hb : b.any (fun x => x.message_id == m.message_id) = true
    · simpa [handleMessageCreated, h0, hb] using hb
    · simp only [handleMessageCreated, h0, Option.isNone_some, if_false,
        Option.getD_some, hb, RMap.insert_self, Bool.false_eq_true]
      simp [List.any_append]

theorem handleMessageCreated_already (st : AppState) (m : Message) (b : List Message)
    (h0 : st.messagesByChannel m.channel_id = some b)
    (hb : b.any (fun x => x.message_id == m.message_id) = true) :
    handleMessageCreated st m = st := by
  simp [handleMessageCreated, h0, hb]

/-- C6: `handleMessageCreated` is idempotent — applying it twice equals
applying it once — and when the target channel's list has no entry with the
message's id beforehand it has exactly one such entry afterwards. -/
theorem c6_message_created_idempotent (st : AppState) (m : Message) :
    handleMessageCreated (handleMessageCreated st m) m = handleMessageCreated st m ∧
    (((st.messagesByChannel m.channel_id).getD []).countP
        (fun x => x.message_id == m.message_id) = 0 →
      (((handleMessageCreated st m).messagesByChannel m.channel_id).getD []).countP
        (fun x => x.message_id == m.message_id) = 1) := by
  constructor
  · have hmem := handleMessageCreated_mem st m
    cases hm : (handleMessageCreated st m).messagesByChannel m.channel_id with
    | none => simp [hm] at hmem
    | some b' =>
      exact handleMessageCreated_already (handleMessageCreated st m) m b' hm
        (by simpa [hm] using hmem)
  · intro hcnt
    cases h0 : st.messagesByChannel m.channel_id with
    | none =>
      simp only [handleMessageCreated, h0, Option.isNone_none, if_true,
        RMap.insert_self, Option.getD_some, List.any_nil, List.nil_append,
        Bool.false_eq_true, if_false]
      simp
    | some b =>
      have hnone : b.any (fun x => x.message_id == m.message_id) = false := by
        rw [h0] at hcnt
        simp only [Option.getD_some] at hcnt
        rw [List.countP_eq_zero] at hcnt
        rw [List.any_eq_false]
        intro x hx
        simpa using hcnt x hx
      simp only [handleMessageCreated, h0, Option.isNone_some, Option.getD_some,
        hnone, RMap.insert_self, Bool.false_eq_true, if_false]
      rw [h0] at hcnt
      simp only [Option.getD_some] at hcnt
      simp [List.countP_append, hcnt]

/-- Witness for C6: creating a fresh message in the empty store yields one
entry. -/
theorem c6_message_created_idempotent_witness :
    (((handleMessageCreated initialState
          ⟨42, 3, 5, "hi", "2024-01-01", none, "u", none, false⟩).messagesByChannel
        3).getD []).countP (fun x => x.message_id == 42) = 1 :=
  (c6_message_created_idempotent initialState
    ⟨42, 3, 5, "hi", "2024-01-01", none, "u", none, false⟩).2 (by decide)

end Store

namespace Webapp

/-- Model of `Message` from `yotsu-interface.tsx`.  `created_at` is the value of
`new Date(created_at).getTime()` (epoch milliseconds), since the component
only ever compares timestamps through `getTime()`; `attachments` is an opaque
payload. -/
structure Message where
  message_id : Nat
  channel_id : Nat
  user_id : Nat
  content : String
  created_at : Nat
  edited_at : Option String
  display_name : String
  parent_id : Option Nat
  attachments : List String
deriving DecidableEq, Repr

/-- The comparator `(a, b) => new Date(a.created_at).getTime() -
new Date(b.created_at).getTime()` orders messages by ascending timestamp. -/
def msgLe (a b : Message) : Prop := a.created_at ≤ b.created_at

instance : DecidableRel msgLe := fun a b =>
  inferInstanceAs (Decidable (a.created_at ≤ b.created_at))

instance : IsTotal Message msgLe :=
  ⟨fun a b => Nat.le_total a.created_at b.created_at⟩

instance : IsTrans Message msgLe :=
  ⟨fun _ _ _ hab hbc => Nat.le_trans hab hbc⟩

/-- Model of `combined.sort(comparator)`: JS `Array.prototype.sort` is stable
(ES2019), and every stable sort under the same total preorder computes the
same list, so it is modelled by stable insertion sort. -/
def sortByCreatedAt (l : List Message) : List Message :=
  List.insertionSort msgLe l

/-- Model of `const limit = 20` in `fetchMessages`. -/
def msgLimit : Nat := 20

/-- The component state touched by `fetchMessages`. -/
structure ChatViewState where
  messages : List Message
  isLoadingMessages : Bool
  hasMoreMessages : Bool
deriving DecidableEq, Repr

/-- Model of `fetchMessages(channelId, beforeMessageId?)` of the chat component: bail
out while loading or once `hasMoreMessages` is false; otherwise fetch a page
(`resp = none` is a failed call), combine it with the previous list — the page
is concatenated *after* the previous messages when `beforeMessageId` is given,
and replaces them otherwise — sort by `created_at` ascending, and set
`hasMoreMessages` to whether the page is exactly `limit` long. -/
def fetchMessages (st : ChatViewState) (beforeMessageId : Option Nat)
    (resp : Option (List Message)) : ChatViewState :=
  if st.isLoadingMessages || !st.hasMoreMessages then st
  else
    match resp with
    | none => { st with isLoadingMessages := false }
    | some newMessages =>
      let combined := match beforeMessageId with
        | some _ => st.messages ++ newMessages
        | none => newMessages
      { messages := sortByCreatedAt combined,
        hasMoreMessages := newMessages.length == msgLimit,
        isLoadingMessages := false }

/-- C2: a `fetchMessages` call that actually fetches (not loading, `hasMore`
still true) and receives a page of at most `limit` items ends with
`hasMoreMessages = false` exactly when the page is shorter than `limit`. -/
theorem c2_pagination_terminates (st : ChatViewState) (bid : Option Nat)
    (page : List Message)
    (hL : st.isLoadingMessages = false) (hM : st.hasMoreMessages = true)
    (hlen : page.length ≤ msgLimit) :
    (fetchMessages st bid (some page)).hasMoreMessages = false ↔
      page.length < msgLimit := by
  simp only [fetchMessages, hL, hM, Bool.not_true, Bool.or_self,
    Bool.false_eq_true, if_false]
  constructor
  · intro h
    have hne : page.length ≠ msgLimit := by
      intro he
      simp [he] at h
    omega
  · intro h
    simp [Nat.ne_of_lt h]

/-- Witness for C2 at a concrete short page. -/
theorem c2_pagination_terminates_witness :
    (fetchMessages ⟨[], false, true⟩ none
        (some [⟨1, 1, 1, "a", 5, none, "u", none, []⟩])).hasMoreMessages = false :=
  (c2_pagination_terminates ⟨[], false, true⟩ none
    [⟨1, 1, 1, "a", 5, none, "u", none, []⟩]
    rfl rfl (by decide)).mpr (by decide)

/-- C3 as stated is false: with `beforeMessageId` the fetched page is
*appended* after the existing list before the stable sort, not prepended.  At
a timestamp tie the stored list differs from prepend-then-sort: existing
message 1 and fetched message 2 share `created_at = 0`, and the code keeps
message 1 first. -/
theorem c3_prepend_counterexample :
    (fetchMessages ⟨[⟨1, 1, 1, "a", 0, none, "u", none, []⟩], false, true⟩
        (some 1) (some [⟨2, 1, 2, "b", 0, none, "v", none, []⟩])).messages ≠
      sortByCreatedAt ([⟨2, 1, 2, "b", 0, none, "v", none, []⟩] ++
        [⟨1, 1, 1, "a", 0, none, "u", none, []⟩]) := by
  decide

/-- C3 amended: with `beforeMessageId` the fetched page is appended after the
existing list and the combination re-sorted by `created_at` ascending, so
after every such call the stored list is sorted ascending by `created_at`. -/
theorem c3_append_and_sorted (st : ChatViewState) (bid : Nat)
    (page : List Message)
    (hL : st.isLoadingMessages = false) (hM : st.hasMoreMessages = true) :
    (fetchMessages st (some bid) (some page)).messages =
      sortByCreatedAt (st.messages ++ page) ∧
    List.Sorted msgLe (fetchMessages st (some bid) (some page)).messages := by
  have heq : (fetchMessages st (some bid) (some page)).messages =
      sortByCreatedAt (st.messages ++ page) := by
    simp [fetchMessages, hL, hM]
  refine ⟨heq, ?_⟩
  rw [heq]
  exact List.sorted_insertionSort msgLe (st.messages ++ page)

/-- Witness for C3 amended: two one-message pages arriving out of order end up
sorted. -/
theorem c3_append_and_sorted_witness :
    (fetchMessages ⟨[⟨2, 1, 1, "b", 9, none, "u", none, []⟩], false, true⟩
        (some 2) (some [⟨1, 1, 1, "a", 4, none, "u", none, []⟩])).messages =
      sortByCreatedAt
        ([⟨2, 1, 1, "b", 9, none, "u", none, []⟩] ++
          [⟨1, 1, 1, "a", 4, none, "u", none, []⟩]) :=
  (c3_append_and_sorted ⟨[⟨2, 1, 1, "b", 9, none, "u", none, []⟩], false, true⟩
    2 [⟨1, 1, 1, "a", 4, none, "u", none, []⟩] rfl rfl).1

end Webapp

end Yotsu
